import Mathlib

/-!
Verification of the `nextjs-video` media-library server.

The TypeScript sources are shallowly embedded: JavaScript numbers become
an inductive `JSNum` over `ℚ` with explicit NaN/Infinity constructors,
filesystem and subprocess effects become explicit oracle functions and
event logs, and each route handler or service method becomes a pure Lean
function mirroring the source control flow line by line.
-/

namespace VideoApp

/-- A JavaScript number: a finite rational, or one of the IEEE-754
special values `NaN`, `Infinity`, `-Infinity`. -/
inductive JSNum where
  | finite (q : ℚ)
  | nan
  | inf
  | negInf
  deriving DecidableEq, Repr

/-- JavaScript `Number.isFinite`. -/
def JSNum.isFinite : JSNum → Bool
  | .finite _ => true
  | _ => false

/-- JavaScript `isNaN`. -/
def JSNum.isNaN : JSNum → Bool
  | .nan => true
  | _ => false

/-- The JavaScript comparison `x > 0` (false on NaN). -/
def JSNum.gtZero : JSNum → Bool
  | .finite q => decide (0 < q)
  | .inf => true
  | _ => false

/-- JavaScript `Math.floor` (identity on NaN and the infinities). -/
def JSNum.mathFloor : JSNum → JSNum
  | .finite q => .finite (⌊q⌋ : ℤ)
  | x => x

/-- JavaScript `String.prototype.padStart(2, '0')` applied to a decimal rendering
of a natural number (from `calculateThumbnailTime`). -/
def pad2 (n : ℕ) : String :=
  if n < 10 then "0" ++ Nat.repr n else Nat.repr n

/-- The `HH:MM:SS` rendering at the end of `calculateThumbnailTime`
(video-service.ts lines 126-130): `hours = ⌊t/3600⌋`,
`minutes = ⌊(t % 3600)/60⌋`, `seconds = ⌊t % 60⌋`, each zero-padded. -/
def formatHMS (t : ℕ) : String :=
  pad2 (t / 3600) ++ ":" ++ pad2 (t % 3600 / 60) ++ ":" ++ pad2 (t % 60)

/-- Model of `VideoService.calculateThumbnailTime` (video-service.ts lines 116-131).
`Math.random()` is made explicit as the argument `rand ∈ [0,1)`.
In the `duration > 6` branch the picked timestamp is a nonnegative
integer (the lower bound is at least 1), so rendering through `ℕ` via
`Int.toNat` is exact. -/
def calculateThumbnailTime (duration : JSNum) (rand : ℚ) : String :=
  match duration with
  | .finite d =>
    if d ≤ 6 then "00:00:01"
    else
      let lowerBound : ℤ := min 10 ⌊d * (2/10)⌋
      let upperBound : ℤ := max lowerBound ⌊d - 5⌋
      let pick : ℚ := lowerBound + rand * (upperBound - lowerBound)
      let timestamp : ℤ := ⌊pick⌋
      formatHMS timestamp.toNat
  | _ => "00:00:01"

/-- The integer number of seconds an `H:M:S` field triple denotes. -/
def hmsValue (h m s : ℕ) : ℕ := h * 3600 + m * 60 + s

end VideoApp

namespace VideoApp

/-- C1: `calculateThumbnailTime(duration)`: for every duration ≤ 6 (or
non-finite) it returns the string `00:00:01`; for every duration > 6 and
every random draw, the returned `HH:MM:SS` timestamp denotes an integer
second `t` with `lowerBound ≤ t ≤ upperBound`, where
`lowerBound = min(10, ⌊duration × 0.2⌋)` and
`upperBound = max(lowerBound, ⌊duration − 5⌋)`. -/
theorem calculateThumbnailTime_bounds (x : JSNum) (d rand : ℚ)
    (hr0 : 0 ≤ rand) (hr1 : rand < 1) :
    (x.isFinite = false → calculateThumbnailTime x rand = "00:00:01") ∧
    (d ≤ 6 → calculateThumbnailTime (.finite d) rand = "00:00:01") ∧
    (6 < d → ∃ t : ℕ,
      calculateThumbnailTime (.finite d) rand =
        formatHMS t ∧
      hmsValue (t / 3600) (t % 3600 / 60) (t % 60) = t ∧
      min 10 ⌊d * (2/10)⌋ ≤ (t : ℤ) ∧
      (t : ℤ) ≤ max (min 10 ⌊d * (2/10)⌋) ⌊d - 5⌋) := by
  refine ⟨?_, ?_, ?_⟩
  · intro hx
    cases x with
    | finite q => simp [JSNum.isFinite] at hx
    | nan => rfl
    | inf => rfl
    | negInf => rfl
  · intro hd
    simp [calculateThumbnailTime, hd]
  · intro hd
    have hd6 : ¬ d ≤ 6 := not_le.mpr hd
    set lb : ℤ := min 10 ⌊d * (2/10)⌋ with hlb
    set ub : ℤ := max lb ⌊d - 5⌋ with hub
    have hlbub : lb ≤ ub := le_max_left _ _
    have hlb1 : (1 : ℤ) ≤ lb := by
      have hfl : (1 : ℤ) ≤ ⌊d * (2/10)⌋ := by
        apply Int.le_floor.mpr
        push_cast
        linarith
      rw [hlb, le_min_iff]
      exact ⟨by norm_num, hfl⟩
    set pick : ℚ := (lb : ℚ) + rand * ((ub : ℚ) - (lb : ℚ)) with hpick
    have hlow : lb ≤ ⌊pick⌋ := by
      apply Int.le_floor.mpr
      have : (0 : ℚ) ≤ rand * ((ub : ℚ) - (lb : ℚ)) := by
        apply mul_nonneg hr0
        have : (lb : ℚ) ≤ (ub : ℚ) := by exact_mod_cast hlbub
        linarith
      linarith
    have hhigh : ⌊pick⌋ ≤ ub := by
      have hspan : (0 : ℚ) ≤ (ub : ℚ) - (lb : ℚ) := by
        have : (lb : ℚ) ≤ (ub : ℚ) := by exact_mod_cast hlbub
        linarith
      have hle : pick ≤ (ub : ℚ) := by
        have := mul_le_of_le_one_left hspan hr1.le
        simp only [hpick]
        linarith
      calc ⌊pick⌋ ≤ ⌊(ub : ℚ)⌋ := Int.floor_le_floor hle
        _ = ub := Int.floor_intCast ub
    have hts0 : 0 ≤ ⌊pick⌋ := le_trans (by omega) hlow
    refine ⟨(⌊pick⌋).toNat, ?_, ?_, ?_, ?_⟩
    · simp only [calculateThumbnailTime, hd6, if_false]
    · simp [hmsValue]
      omega
    · rw [Int.toNat_of_nonneg hts0]
      exact hlow
    · rw [Int.toNat_of_nonneg hts0]
      exact hhigh

end VideoApp

namespace VideoApp

/-- The static extension → MIME table (`lib/mime-types.ts`). -/
def MIME_TYPES : List (String × String) :=
  [("mp4", "video/mp4"),
   ("webm", "video/webm"),
   ("mov", "video/quicktime"),
   ("avi", "video/x-msvideo"),
   ("mkv", "video/x-matroska"),
   ("webp", "image/webp"),
   ("png", "image/png"),
   ("jpg", "image/jpeg"),
   ("jpeg", "image/jpeg")]

/-- Lookup `MIME_TYPES[ext]` (a JavaScript property read on the table object). -/
def mimeLookup (ext : String) : Option String :=
  (MIME_TYPES.find? (fun p => p.1 == ext)).map (·.2)

/-- Check `Object.prototype.hasOwnProperty.call(MIME_TYPES, extension)`. -/
def mimeHasKey (ext : String) : Bool :=
  (MIME_TYPES.find? (fun p => p.1 == ext)).isSome

/-- Split a character list at every occurrence of the separator `c`
(the semantics of JavaScript `String.prototype.split` with a one-character
separator: `n` separators yield `n+1` pieces, empty pieces included). -/
def splitOnChar (c : Char) : List Char → List (List Char)
  | [] => [[]]
  | x :: xs =>
    let rest := splitOnChar c xs
    if x = c then [] :: rest
    else
      match rest with
      | [] => [[x]]
      | r :: rs => (x :: r) :: rs

/-- JavaScript `s.split(c)` for a one-character separator. -/
def jsSplit (s : String) (c : Char) : List String :=
  (splitOnChar c s.data).map String.mk

/-- JavaScript `String.prototype.toLowerCase` (ASCII case mapping). -/
def jsToLower (s : String) : String :=
  ⟨s.data.map Char.toLower⟩

/-- JavaScript `Array.prototype.join(sep)` on an array of strings. -/
def jsJoin (sep : String) : List String → String
  | [] => ""
  | [x] => x
  | x :: xs => x ++ sep ++ jsJoin sep xs

/-- Model of `getFileExtension` (file-utils):
`fileName.split('.').pop()?.toLowerCase() || ''`. -/
def getFileExtension (fileName : String) : String :=
  match (jsSplit fileName '.').getLast? with
  | some s => jsToLower s
  | none => ""

/-- Model of `getBaseName` (file-utils): strips a final `.<ext>` suffix
(`fileName.replace(/\.[^/.]+$/, '')`). The regex drops the last
dot-segment only when it is nonempty and contains no `/` or further dot,
i.e. exactly when `split('.')` has at least two parts and the last part
is nonempty and free of `/`. -/
def getBaseName (fileName : String) : String :=
  let parts := jsSplit fileName '.'
  match parts.getLast? with
  | some last =>
    if parts.length ≥ 2 ∧ last ≠ "" ∧ ¬ (last.data.contains '/') then
      jsJoin "." parts.dropLast
    else fileName
  | none => fileName

/-- JavaScript `String.prototype.includes`. -/
def strIncludes (s sub : String) : Bool :=
  decide (sub.data <:+: s.data)

/-- JavaScript `String.prototype.startsWith`. -/
def strStartsWith (s pre : String) : Bool :=
  pre.data.isPrefixOf s.data

/-- Filesystem oracle for the asset-server model: whether a path exists
(`fileExists`), its `stat` size, and its byte content. -/
structure FS where
  pathExists : String → Bool
  size : String → ℕ
  content : String → List ℕ

/-- A response body: either the JSON error object or streamed bytes. -/
inductive RespBody where
  | jsonError (msg : String)
  | bytes (data : List ℕ)
  deriving DecidableEq

/-- An HTTP response as built by the route handler. -/
structure Response where
  status : ℕ
  headers : List (String × String)
  body : RespBody
  deriving DecidableEq

/-- Value of a response header, if set. -/
def Response.header (r : Response) (k : String) : Option String :=
  (r.headers.find? (fun p => p.1 == k)).map (·.2)

/-- Response built by NextResponse.json with an error message and a status. -/
def jsonResponse (msg : String) (status : ℕ) : Response :=
  ⟨status, [], .jsonError msg⟩

/-- Node `createReadStream` with inclusive start and end: the byte span from index
`start` through index `stop` inclusive (clamped at end of file). -/
def readStreamRange (content : List ℕ) (start : ℕ) (stop : ℤ) : List ℕ :=
  (content.drop start).take (stop + 1 - start).toNat

/-- Result of `range.match(/bytes=(\d+)-(\d*)/)`: `none` when the header
did not match the pattern, otherwise the first captured number and the
optional second captured number. -/
abbrev RangeMatch := Option (ℕ × Option ℕ)

/-- Content-type resolution of the GET handler (route.ts lines 59-71):
table lookup, then the video default / ordered image fallback chain. -/
def resolveContentType (resourceType ext : String) : String :=
  match mimeLookup ext with
  | some m => m
  | none =>
    if resourceType = "videos" then "video/mp4"
    else if ext = "vtt" then "text/vtt"
    else if ext = "webp" then "image/webp"
    else if ext = "png" then "image/png"
    else if ext = "jpg" ∨ ext = "jpeg" then "image/jpeg"
    else "application/octet-stream"

/-- The asset-server GET handler (`app/api/[...path]/route.ts`).
`storageDir` models `config.storageDir`; `decode` models
`decodeURIComponent`; `range` is the `Range` header after the regex
match (`none` = header absent, `some none` = header present but not
matching); `pathParts0` is `url.pathname.split('/').filter(Boolean)`.
Path joining is modelled as `/`-concatenation (exact once the traversal
check passed). The second component is the ordered log of filesystem
accesses (`fileExists`, `stat`, `createReadStream`), each recorded as
the accessed path. -/
def routeGET (storageDir : String) (decode : String → String) (fs : FS)
    (range : Option RangeMatch) (pathParts0 : List String) :
    Response × List String :=
  let pathParts := if pathParts0.head? = some "api" then pathParts0.tail else pathParts0
  if pathParts.length < 2 then
    (jsonResponse "Invalid path" 400, [])
  else
    match pathParts with
    | [] => (jsonResponse "Invalid path" 400, [])
    | resourceType :: fileNameParts =>
      if (["videos", "thumbnails", "processed"].contains resourceType) = false then
        (jsonResponse "Invalid resource type" 400, [])
      else
        let baseDir := storageDir ++ "/" ++ resourceType
        let decodedName := decode (jsJoin "/" fileNameParts)
        let fileName := decodedName
        if strIncludes fileName ".." || strStartsWith fileName "/" then
          (jsonResponse "Invalid file path" 400, [])
        else
          let filePath := baseDir ++ "/" ++ fileName
          if fs.pathExists filePath = false then
            (jsonResponse "File not found" 404, [filePath])
          else
            let fileSize := fs.size filePath
            let ext := getFileExtension fileName
            let contentType := resolveContentType resourceType ext
            let fullServe : Response × List String :=
              (⟨200,
                [("Content-Length", Nat.repr fileSize),
                 ("Content-Type", contentType),
                 ("Accept-Ranges", "bytes"),
                 ("Cache-Control",
                   if resourceType = "videos" then "no-store, max-age=0"
                   else "public, max-age=31536000, immutable")],
                .bytes (fs.content filePath)⟩,
               [filePath, filePath, filePath])
            match range with
            | some (some (start, endGroup)) =>
              if resourceType = "videos" then
                let stop : ℤ :=
                  match endGroup with
                  | some e => (e : ℤ)
                  | none => (fileSize : ℤ) - 1
                let chunkSize : ℤ := stop - (start : ℤ) + 1
                (⟨206,
                  [("Content-Range",
                    "bytes " ++ Nat.repr start ++ "-" ++ Int.repr stop ++
                      "/" ++ Nat.repr fileSize),
                   ("Accept-Ranges", "bytes"),
                   ("Content-Length", Int.repr chunkSize),
                   ("Content-Type", contentType)],
                  .bytes (readStreamRange (fs.content filePath) start stop)⟩,
                 [filePath, filePath, filePath])
              else fullServe
            | _ => fullServe

end VideoApp

namespace VideoApp

/-- A demonstration filesystem for concrete route-handler runs: a single
1000-byte video file `a.mp4` under `/storage/videos`. -/
def demoFS : FS :=
  ⟨fun p => p == "/storage/videos/a.mp4", fun _ => 1000, fun _ => List.range 1000⟩

/-- Rendering `Int.repr` agrees with `Nat.repr` on natural numbers. -/
theorem int_repr_ofNat (n : ℕ) : Int.repr (n : ℤ) = Nat.repr n := rfl

/-- C2: for every resource class and every requested file name, if the
decoded name contains `..` or starts with `/`, the GET handler returns
400 with no filesystem access; and every resource class outside
{videos, thumbnails, processed} is likewise rejected with 400 before any
filesystem access. -/
theorem routeGET_validation (storageDir : String) (decode : String → String)
    (fs : FS) (range : Option RangeMatch) (resourceType : String)
    (fileNameParts : List String) :
    ((strIncludes (decode (jsJoin "/" fileNameParts)) ".." = true ∨
      strStartsWith (decode (jsJoin "/" fileNameParts)) "/" = true) →
      (routeGET storageDir decode fs range
          ("api" :: resourceType :: fileNameParts)).1.status = 400 ∧
      (routeGET storageDir decode fs range
          ("api" :: resourceType :: fileNameParts)).2 = []) ∧
    ((["videos", "thumbnails", "processed"].contains resourceType) = false →
      (routeGET storageDir decode fs range
          ("api" :: resourceType :: fileNameParts)).1.status = 400 ∧
      (routeGET storageDir decode fs range
          ("api" :: resourceType :: fileNameParts)).2 = []) := by
  constructor
  · intro h
    cases fileNameParts with
    | nil =>
      simp [routeGET, jsonResponse]
    | cons a as =>
      rcases h with h | h <;>
        exact ⟨by simp [routeGET, h]; split <;> first | rfl | (split <;> rfl),
               by simp [routeGET, h]; split <;> first | rfl | (split <;> rfl)⟩
  · intro hrt
    simp at hrt
    cases fileNameParts with
    | nil =>
      simp [routeGET, jsonResponse]
    | cons a as =>
      exact ⟨by simp [routeGET, hrt]; split <;> rfl,
             by simp [routeGET, hrt]; split <;> rfl⟩

/-- Concrete instance of `routeGET_validation`: the traversal request
`../etc/passwd` and the unknown class `secrets` are both rejected with
status 400 and an empty filesystem-access log. -/
theorem routeGET_validation_witness :
    ((routeGET "/storage" id demoFS none
        ("api" :: "videos" :: ["..", "etc", "passwd"])).1.status = 400 ∧
     (routeGET "/storage" id demoFS none
        ("api" :: "videos" :: ["..", "etc", "passwd"])).2 = []) ∧
    ((routeGET "/storage" id demoFS none
        ("api" :: "secrets" :: ["a.mp4"])).1.status = 400 ∧
     (routeGET "/storage" id demoFS none
        ("api" :: "secrets" :: ["a.mp4"])).2 = []) :=
  ⟨(routeGET_validation "/storage" id demoFS none "videos"
      ["..", "etc", "passwd"]).1 (Or.inl (by decide)),
   (routeGET_validation "/storage" id demoFS none "secrets"
      ["a.mp4"]).2 (by decide)⟩

/-- C3: a GET on the videos class with a matched `bytes=start-end` Range
header, on an existing file of size `N` whose content has length `N`,
with `start ≤ end < N`, yields status 206,
`Content-Range: bytes start-end/N`, `Content-Length: end−start+1`,
`Accept-Ranges: bytes`, and the body is exactly the inclusive byte span
`start..end` of the source file; with the end group absent the span runs
to the end of the file. -/
theorem routeGET_range_request (storageDir : String) (decode : String → String)
    (fs : FS) (fileNameParts : List String) (start stop N : ℕ)
    (hclean1 : strIncludes (decode (jsJoin "/" fileNameParts)) ".." = false)
    (hclean2 : strStartsWith (decode (jsJoin "/" fileNameParts)) "/" = false)
    (hex : fs.pathExists
      (storageDir ++ "/" ++ "videos" ++ "/" ++ decode (jsJoin "/" fileNameParts)) = true)
    (hsize : fs.size
      (storageDir ++ "/" ++ "videos" ++ "/" ++ decode (jsJoin "/" fileNameParts)) = N)
    (hlen : (fs.content
      (storageDir ++ "/" ++ "videos" ++ "/" ++ decode (jsJoin "/" fileNameParts))).length = N)
    (hne : fileNameParts ≠ [])
    (hse : start ≤ stop) (hsN : stop < N) :
    (let resp := (routeGET storageDir decode fs (some (some (start, some stop)))
        ("api" :: "videos" :: fileNameParts)).1
     let content := fs.content
        (storageDir ++ "/" ++ "videos" ++ "/" ++ decode (jsJoin "/" fileNameParts))
     resp.status = 206 ∧
     resp.header "Content-Range" =
       some ("bytes " ++ Nat.repr start ++ "-" ++ Nat.repr stop ++ "/" ++ Nat.repr N) ∧
     resp.header "Content-Length" = some (Nat.repr (stop - start + 1)) ∧
     resp.header "Accept-Ranges" = some "bytes" ∧
     resp.body = .bytes ((content.drop start).take (stop - start + 1)) ∧
     ((content.drop start).take (stop - start + 1)).length = stop - start + 1) ∧
    (let resp := (routeGET storageDir decode fs (some (some (start, none)))
        ("api" :: "videos" :: fileNameParts)).1
     let content := fs.content
        (storageDir ++ "/" ++ "videos" ++ "/" ++ decode (jsJoin "/" fileNameParts))
     resp.status = 206 ∧
     resp.header "Content-Range" =
       some ("bytes " ++ Nat.repr start ++ "-" ++ Nat.repr (N - 1) ++ "/" ++ Nat.repr N) ∧
     resp.header "Content-Length" = some (Nat.repr (N - start)) ∧
     resp.header "Accept-Ranges" = some "bytes" ∧
     resp.body = .bytes (content.drop start)) := by
  cases fileNameParts with
  | nil => exact absurd rfl hne
  | cons a as =>
    have hcl : ((stop : ℤ) - (start : ℤ) + 1).repr = Nat.repr (stop - start + 1) := by
      have hcast : ((stop : ℤ) - (start : ℤ) + 1) = ((stop - start + 1 : ℕ) : ℤ) := by
        omega
      rw [hcast, int_repr_ofNat]
    have hspan : ((stop : ℤ) + 1 - (start : ℤ)).toNat = stop - start + 1 := by omega
    have hN1 : ((N : ℤ) - 1).repr = Nat.repr (N - 1) := by
      have hcast : ((N : ℤ) - 1) = ((N - 1 : ℕ) : ℤ) := by omega
      rw [hcast, int_repr_ofNat]
    have hNs : ((N : ℤ) - 1 - (start : ℤ) + 1).repr = Nat.repr (N - start) := by
      have hcast : ((N : ℤ) - 1 - (start : ℤ) + 1) = ((N - start : ℕ) : ℤ) := by omega
      rw [hcast, int_repr_ofNat]
    have hNspan : ((N : ℤ) - 1 + 1 - (start : ℤ)).toNat = N - start := by omega
    constructor
    · intro resp content
      simp [routeGET, hclean1, hclean2, hex, hsize, hlen, hcl, hspan, resp, content,
        Response.header, readStreamRange, int_repr_ofNat,
        (show ¬ (as.length + 1 + 1 < 2) by omega)]
      omega
    · intro resp content
      simp [routeGET, hclean1, hclean2, hex, hsize, hlen, hN1, hNs, hNspan, resp, content,
        Response.header, readStreamRange, int_repr_ofNat,
        List.take_of_length_le (by simp [hlen] : (((fs.content
          (storageDir ++ "/" ++ "videos" ++ "/" ++
            decode (jsJoin "/" (a :: as)))).drop start).length ≤ N - start)),
        (show ¬ (as.length + 1 + 1 < 2) by omega)]

/-- Concrete instance of `routeGET_range_request`: `bytes=0-99` of the
1000-byte demo file yields 206, `Content-Range: bytes 0-99/1000`,
`Content-Length: 100`, and the first 100 bytes of the file. -/
theorem routeGET_range_request_witness :
    (let resp := (routeGET "/storage" id demoFS (some (some (0, some 99)))
        ("api" :: "videos" :: ["a.mp4"])).1
     let content := demoFS.content
        ("/storage" ++ "/" ++ "videos" ++ "/" ++ id (jsJoin "/" ["a.mp4"]))
     resp.status = 206 ∧
     resp.header "Content-Range" =
       some ("bytes " ++ Nat.repr 0 ++ "-" ++ Nat.repr 99 ++ "/" ++ Nat.repr 1000) ∧
     resp.header "Content-Length" = some (Nat.repr (99 - 0 + 1)) ∧
     resp.header "Accept-Ranges" = some "bytes" ∧
     resp.body = .bytes ((content.drop 0).take (99 - 0 + 1)) ∧
     ((content.drop 0).take (99 - 0 + 1)).length = 99 - 0 + 1) ∧
    (let resp := (routeGET "/storage" id demoFS (some (some (0, none)))
        ("api" :: "videos" :: ["a.mp4"])).1
     let content := demoFS.content
        ("/storage" ++ "/" ++ "videos" ++ "/" ++ id (jsJoin "/" ["a.mp4"]))
     resp.status = 206 ∧
     resp.header "Content-Range" =
       some ("bytes " ++ Nat.repr 0 ++ "-" ++ Nat.repr (1000 - 1) ++ "/" ++ Nat.repr 1000) ∧
     resp.header "Content-Length" = some (Nat.repr (1000 - 0)) ∧
     resp.header "Accept-Ranges" = some "bytes" ∧
     resp.body = .bytes (content.drop 0)) :=
  routeGET_range_request "/storage" id demoFS ["a.mp4"] 0 99 1000
    (by decide) (by decide) (by decide) (by decide)
    (by simp [demoFS]) (by decide) (by decide) (by decide)

/-- C9 fails as stated: the 206 partial-content branch sets no
`Cache-Control` header at all, so not every videos-class response
carries a non-cacheable marking — here a concrete ranged request on the
videos class yields a 206 response with no `Cache-Control`. -/
theorem routeGET_cache_counterexample :
    (routeGET "/storage" id demoFS (some (some (0, some 0)))
        ["api", "videos", "a.mp4"]).1.status = 206 ∧
    (routeGET "/storage" id demoFS (some (some (0, some 0)))
        ["api", "videos", "a.mp4"]).1.header "Cache-Control" = none := by
  constructor <;> decide

/-- C9 (amended): every full-file (non-range) asset-server response
carries `Cache-Control: no-store, max-age=0` for the videos class and
`Cache-Control: public, max-age=31536000, immutable` for the thumbnails
and processed classes; the 206 partial-content responses for matched
video range requests carry no `Cache-Control` header. -/
theorem routeGET_cache_policy (storageDir : String) (decode : String → String)
    (fs : FS) (resourceType a : String) (as : List String)
    (start : ℕ) (stopOpt : Option ℕ)
    (hrt : (["videos", "thumbnails", "processed"].contains resourceType) = true)
    (hclean1 : strIncludes (decode (jsJoin "/" (a :: as))) ".." = false)
    (hclean2 : strStartsWith (decode (jsJoin "/" (a :: as))) "/" = false)
    (hex : fs.pathExists
      (storageDir ++ "/" ++ resourceType ++ "/" ++ decode (jsJoin "/" (a :: as))) = true)
    (hexv : fs.pathExists
      (storageDir ++ "/" ++ "videos" ++ "/" ++ decode (jsJoin "/" (a :: as))) = true) :
    ((routeGET storageDir decode fs none
        ("api" :: resourceType :: a :: as)).1.header "Cache-Control" =
      some (if resourceType = "videos" then "no-store, max-age=0"
            else "public, max-age=31536000, immutable")) ∧
    ((routeGET storageDir decode fs (some (some (start, stopOpt)))
        ("api" :: "videos" :: a :: as)).1.status = 206 ∧
     (routeGET storageDir decode fs (some (some (start, stopOpt)))
        ("api" :: "videos" :: a :: as)).1.header "Cache-Control" = none) := by
  simp at hrt
  constructor
  · rcases hrt with h | h | h <;> subst h <;>
      simp [routeGET, hclean1, hclean2, hex, Response.header,
        (show ¬ (as.length + 1 + 1 < 2) by omega)]
  · constructor <;>
      simp [routeGET, hclean1, hclean2, hexv, Response.header,
        (show ¬ (as.length + 1 + 1 < 2) by omega)]

/-- Concrete instance of `routeGET_cache_policy` on the demo filesystem. -/
theorem routeGET_cache_policy_witness :
    ((routeGET "/storage" id demoFS none
        ("api" :: "videos" :: "a.mp4" :: [])).1.header "Cache-Control" =
      some (if "videos" = "videos" then "no-store, max-age=0"
            else "public, max-age=31536000, immutable")) ∧
    ((routeGET "/storage" id demoFS (some (some (5, some 9)))
        ("api" :: "videos" :: "a.mp4" :: [])).1.status = 206 ∧
     (routeGET "/storage" id demoFS (some (some (5, some 9)))
        ("api" :: "videos" :: "a.mp4" :: [])).1.header "Cache-Control" = none) :=
  routeGET_cache_policy "/storage" id demoFS "videos" "a.mp4" [] 5 (some 9)
    (by decide) (by decide) (by decide) (by decide) (by decide)

end VideoApp

namespace VideoApp

/-! ### Probe Adapter (`getVideoDuration`, `getDurationFromStreams`) -/

/-- A value of the probe's structured output: a number or a string
(fluent-ffmpeg types `duration` as `number | string`). -/
inductive JSVal where
  | num (x : JSNum)
  | str (s : String)
  deriving DecidableEq

/-- Coercion `typeof duration === 'string' ? parseFloat(duration) : duration`.
`parseFloat` is the JavaScript builtin, passed in as an oracle. -/
def coerceDuration (parseFloat : String → JSNum) : JSVal → JSNum
  | .num x => x
  | .str s => parseFloat s

/-- One entry of `metadata.streams`. -/
structure FFProbeStream where
  codec_type : String
  duration : Option JSVal
  deriving DecidableEq

/-- The ffprobe output consumed by the two duration readers.
`formatDuration = none` collapses both "`format` missing" and
"`format.duration` missing/null" (the handler treats them identically);
`streams = []` likewise covers a missing `streams` array. -/
structure FFProbeMeta where
  formatDuration : Option JSVal
  streams : List FFProbeStream
  deriving DecidableEq

/-- Model of `VideoService.getVideoDuration` (video-service.ts lines 206-228):
the primary `format.duration` path. The ffprobe callback's `(err,
metadata)` pair is the `Except` argument. -/
def getVideoDuration (parseFloat : String → JSNum)
    (probe : Except String FFProbeMeta) : Except String JSNum :=
  match probe with
  | .error e => .error e
  | .ok metadata =>
    match metadata.formatDuration with
    | none => .error "No duration found in metadata"
    | some duration =>
      let durationNum := coerceDuration parseFloat duration
      if (!durationNum.isNaN && durationNum.gtZero) = true then
        .ok durationNum.mathFloor
      else
        .error "No valid duration found in metadata"

/-- Model of `VideoService.getDurationFromStreams` (video-service.ts lines
233-260): the per-stream fallback path. -/
def getDurationFromStreams (parseFloat : String → JSNum)
    (probe : Except String FFProbeMeta) : Except String JSNum :=
  match probe with
  | .error e => .error e
  | .ok metadata =>
    let videoStreams := metadata.streams.filter (fun s => s.codec_type == "video")
    match videoStreams with
    | [] => .error "No duration found in video streams"
    | s0 :: _ =>
      match s0.duration with
      | none => .error "No duration found in video streams"
      | some duration =>
        let durationNum := coerceDuration parseFloat duration
        if (!durationNum.isNaN && durationNum.gtZero) = true then
          .ok durationNum.mathFloor
        else
          .error "No duration found in video streams"

/-! ### Metadata Assembler retry loop (`regenerateMetadata`) -/

/-- JavaScript truthiness of the `duration` variable of
`regenerateMetadata` (`undefined` and `0` are falsy). -/
def durTruthy : Option ℕ → Bool
  | some d => d != 0
  | none => false

/-- The per-file `while (attempts < maxAttempts && !duration)` retry
loop of `regenerateMetadata` (video-service.ts lines 352-367), with
`maxAttempts = 3`. `probe k` is the outcome of the `k`-th
`getVideoDuration` call; resolved values are already-floored naturals.
The loop has no structural termination measure — a probe call that
resolves leaves `attempts` untouched — so it is run on explicit `fuel`:
the first component is `none` while the loop is still running after
`fuel` iterations, otherwise `some` of the final `duration`. The second
and third components count probe calls and 1-second `setTimeout` pauses
(a pause is taken only when `attempts < maxAttempts` still holds after a
failure). -/
def retryLoop (probe : ℕ → Except Unit ℕ) :
    ℕ → ℕ → ℕ → ℕ → Option ℕ → Option (Option ℕ) × ℕ × ℕ
  | 0, _, calls, sleeps, _ => (none, calls, sleeps)
  | fuel + 1, attempts, calls, sleeps, duration =>
    if attempts < 3 ∧ durTruthy duration = false then
      match probe calls with
      | .ok d => retryLoop probe fuel attempts (calls + 1) sleeps (some d)
      | .error _ =>
        if attempts + 1 < 3 then
          retryLoop probe fuel (attempts + 1) (calls + 1) (sleeps + 1) duration
        else
          retryLoop probe fuel (attempts + 1) (calls + 1) sleeps duration
    else (some duration, calls, sleeps)

/-! ### Metadata Assembler (`getVideoMetadata`, `getAllVideos`) -/

/-- The VideoMetadata record (`lib/types.ts`). `createdAt` is the stat
birthtime in epoch milliseconds. -/
structure VideoMetadata where
  id : String
  title : String
  fileName : String
  size : ℕ
  duration : Option ℕ
  createdAt : ℚ
  thumbnailUrl : Option String
  videoUrl : String
  mimeType : String
  deriving DecidableEq

/-- The title derivation `baseName.replace(/[_-]/g, ' ')`. -/
def replaceSeps (s : String) : String :=
  ⟨s.data.map (fun c => if c = '_' ∨ c = '-' then ' ' else c)⟩

/-- Per-file effect oracle for `getVideoMetadata`: the `stat` outcome
(size and birthtime, or a thrown error), the net outcome of the duration
probing with its stream fallback (both failures absorbed to `none`), and
the `ensureThumbnail` outcome. -/
structure FileOracle where
  statResult : String → Except Unit (ℕ × ℚ)
  durationResult : String → Option ℕ
  thumbnailResult : String → Option String

/-- Model of `VideoService.getVideoMetadata` (video-service.ts lines 265-297). -/
def getVideoMetadata (ora : FileOracle) (file : String) :
    Except Unit VideoMetadata :=
  match ora.statResult file with
  | .error e => .error e
  | .ok (sz, birth) =>
    let extension := getFileExtension file
    .ok {
      id := file
      title := replaceSeps (getBaseName file)
      fileName := file
      size := sz
      duration := ora.durationResult file
      createdAt := birth
      thumbnailUrl := ora.thumbnailResult file
      videoUrl := "/videos/" ++ file
      mimeType := (mimeLookup extension).getD "video/mp4"
    }

/-- Model of `VideoService.getAllVideos` (video-service.ts lines 302-331):
map every directory entry to an optional record (unsupported extension
or a failed per-file build yield `null`), then collect the fulfilled
non-null results in order (`Promise.allSettled` keeps input order). -/
def getAllVideos (ora : FileOracle) (files : List String) :
    List VideoMetadata :=
  let videoPromises := files.map (fun file =>
    let extension := getFileExtension file
    let supported := mimeHasKey extension
    if extension ≠ "" ∧ supported = true then
      match getVideoMetadata ora file with
      | .ok m => some m
      | .error _ => none
    else none)
  videoPromises.reduceOption

/-! ### Thumbnail Cache (`ensureThumbnail`) -/

/-- Filesystem oracle for the thumbnail cache: candidate existence and
stat `mtimeMs` (a fractional epoch-millisecond count). -/
structure ThumbFS where
  pathExists : String → Bool
  mtimeMs : String → ℚ

/-- Model of `VideoService.ensureThumbnail` (video-service.ts lines 161-201).
`generate videoPath timeOffset` is the outcome oracle of the ffmpeg
screenshot call: `some m` means generation succeeded and the fresh
thumbnail then stats with `mtimeMs = m`; `none` means it failed. `rand`
is the `Math.random()` draw consumed by `calculateThumbnailTime`. When
`force` is true both candidates are removed first, so the
existence checks are skipped and control falls through to generation
(the removal itself only affects state seen by `generate`). Returns the
optional URL and the list of generation invocations (by video path). -/
def ensureThumbnail (storageDir : String) (fs : ThumbFS)
    (generate : String → String → Option ℚ) (rand : ℚ)
    (file : String) (duration : Option ℕ) (force : Bool) :
    Option String × List String :=
  let baseName := getBaseName file
  let thumbnailName := baseName ++ ".jpg"
  let thumbVariantName := baseName ++ "_thumb.jpg"
  let thumbnailPath := storageDir ++ "/thumbnails" ++ "/" ++ thumbnailName
  let thumbVariantPath := storageDir ++ "/thumbnails" ++ "/" ++ thumbVariantName
  if force = false ∧ fs.pathExists thumbnailPath = true then
    (some ("/thumbnails/" ++ thumbnailName ++ "?v=" ++
      Int.repr ⌊fs.mtimeMs thumbnailPath⌋), [])
  else if force = false ∧ fs.pathExists thumbVariantPath = true then
    (some ("/thumbnails/" ++ thumbVariantName ++ "?v=" ++
      Int.repr ⌊fs.mtimeMs thumbVariantPath⌋), [])
  else
    match duration with
    | some d =>
      if 0 < d then
        let videoPath := storageDir ++ "/videos" ++ "/" ++ file
        let timeOffset := calculateThumbnailTime (.finite (d : ℚ)) rand
        match generate videoPath timeOffset with
        | some m =>
          (some ("/thumbnails/" ++ thumbnailName ++ "?v=" ++ Int.repr ⌊m⌋),
           [videoPath])
        | none => (none, [videoPath])
      else (none, [])
    | none => (none, [])

/-! ### Sprite Job Runner (`POST /api/sprite`) -/

/-- The `fileName` field of the request body: absent/undefined, present
but not a string, or a string. -/
inductive BodyField where
  | absent
  | nonString
  | str (s : String)
  deriving DecidableEq

/-- The rejection check `!fileName || typeof fileName !== "string"`
(an empty string is falsy and also rejected). -/
def BodyField.invalid : BodyField → Bool
  | .absent => true
  | .nonString => true
  | .str s => s == ""

/-- The sprite route's HTTP outcome: response status, the `ok` field of
the JSON body when present, and the spawned subprocess invocations. -/
structure SpriteResult where
  status : ℕ
  okField : Option Bool
  spawned : List (String × List String)
  deriving DecidableEq

/-- The sprite-generation POST handler (app/api/sprite/route.ts).
`fsExists` models `fileExists`; `exitOutcome` models the child's `close`
event payload: `some code` is a normal exit and `none` an abnormal
(signal) termination whose `code` is `null` — the handler coerces it via
`code ?? 0`. Path join with `..` is kept as literal concatenation (the
script path's exact spelling is irrelevant here), and `pythonCmd` is the
non-win32 `python3`. -/
def spritePOST (storageDir cwd : String) (fsExists : String → Bool)
    (exitOutcome : Option ℤ) (fileName : BodyField) : SpriteResult :=
  if fileName.invalid = true then ⟨400, none, []⟩
  else
    match fileName with
    | .str name =>
      let videosDir := storageDir ++ "/videos"
      let videoPath := videosDir ++ "/" ++ name
      let scriptPath := cwd ++ "/../backend/videoprocessing/generate_sprite.py"
      if fsExists videoPath = false then ⟨404, none, []⟩
      else if fsExists scriptPath = false then ⟨500, none, []⟩
      else
        let args := ["-u", scriptPath, "--input", videoPath]
        let exitCode : ℤ := exitOutcome.getD 0
        if exitCode ≠ 0 then ⟨500, some false, [("python3", args)]⟩
        else ⟨200, some true, [("python3", args)]⟩
    | _ => ⟨400, none, []⟩

end VideoApp

namespace VideoApp

/-- C4 fails as stated: finiteness is never checked, so a probe output
whose `format.duration` (or first video stream duration) is the number
`Infinity` is accepted with `!isNaN && > 0` and returned as a duration —
a non-finite value — by both paths. -/
theorem duration_infinity_counterexample :
    getVideoDuration (fun _ => JSNum.nan)
      (.ok ⟨some (.num .inf), []⟩) = .ok JSNum.inf ∧
    getDurationFromStreams (fun _ => JSNum.nan)
      (.ok ⟨none, [⟨"video", some (.num .inf)⟩]⟩) = .ok JSNum.inf ∧
    JSNum.inf.isFinite = false :=
  ⟨rfl, rfl, rfl⟩

/-- C4 (amended): both duration paths accept a present value iff it
coerces to a non-NaN number strictly greater than zero — finiteness is
not checked, so `Infinity` is accepted and returned as `Infinity` — and
the accepted value is returned through `Math.floor` (truncating finite
values to whole seconds); a missing value, or one that is NaN, zero or
negative, is rejected with an error. -/
theorem duration_acceptance (parseFloat : String → JSNum)
    (metadata : FFProbeMeta) (v : JSVal) :
    (metadata.formatDuration = some v →
      ((getVideoDuration parseFloat (.ok metadata) =
          .ok (coerceDuration parseFloat v).mathFloor ↔
        ((coerceDuration parseFloat v).isNaN = false ∧
         (coerceDuration parseFloat v).gtZero = true)) ∧
       (¬ ((coerceDuration parseFloat v).isNaN = false ∧
           (coerceDuration parseFloat v).gtZero = true) →
         getVideoDuration parseFloat (.ok metadata) =
           .error "No valid duration found in metadata"))) ∧
    (metadata.formatDuration = none →
      getVideoDuration parseFloat (.ok metadata) =
        .error "No duration found in metadata") ∧
    (∀ s0 rest,
      metadata.streams.filter (fun s => s.codec_type == "video") = s0 :: rest →
      (s0.duration = some v →
        ((getDurationFromStreams parseFloat (.ok metadata) =
            .ok (coerceDuration parseFloat v).mathFloor ↔
          ((coerceDuration parseFloat v).isNaN = false ∧
           (coerceDuration parseFloat v).gtZero = true)) ∧
         (¬ ((coerceDuration parseFloat v).isNaN = false ∧
             (coerceDuration parseFloat v).gtZero = true) →
           getDurationFromStreams parseFloat (.ok metadata) =
             .error "No duration found in video streams"))) ∧
      (s0.duration = none →
        getDurationFromStreams parseFloat (.ok metadata) =
          .error "No duration found in video streams")) ∧
    (metadata.streams.filter (fun s => s.codec_type == "video") = [] →
      getDurationFromStreams parseFloat (.ok metadata) =
        .error "No duration found in video streams") := by
  refine ⟨?_, ?_, ?_, ?_⟩
  · intro hfmt
    constructor
    · constructor
      · intro hok
        by_contra hrej
        rw [getVideoDuration, hfmt] at hok
        simp only [Bool.and_eq_true, Bool.not_eq_true'] at hok
        split at hok
        · rename_i hacc
          exact hrej ⟨hacc.1, hacc.2⟩
        · exact Except.noConfusion hok
      · intro hacc
        rw [getVideoDuration]
        rw [hfmt]
        simp [hacc.1, hacc.2]
    · intro hrej
      rw [getVideoDuration, hfmt]
      simp only [Bool.and_eq_true, Bool.not_eq_true']
      rw [if_neg]
      intro hacc
      exact hrej ⟨hacc.1, hacc.2⟩
  · intro hfmt
    rw [getVideoDuration, hfmt]
  · intro s0 rest hfilter
    constructor
    · intro hdur
      constructor
      · constructor
        · intro hok
          by_contra hrej
          rw [getDurationFromStreams] at hok
          simp only [hfilter, hdur] at hok
          simp only [Bool.and_eq_true, Bool.not_eq_true'] at hok
          split at hok
          · rename_i hacc
            exact hrej ⟨hacc.1, hacc.2⟩
          · exact Except.noConfusion hok
        · intro hacc
          rw [getDurationFromStreams]
          simp only [hfilter, hdur]
          simp [hacc.1, hacc.2]
      · intro hrej
        rw [getDurationFromStreams]
        simp only [hfilter, hdur]
        simp only [Bool.and_eq_true, Bool.not_eq_true']
        rw [if_neg]
        intro hacc
        exact hrej ⟨hacc.1, hacc.2⟩
    · intro hdur
      rw [getDurationFromStreams]
      simp only [hfilter, hdur]
  · intro hfilter
    rw [getDurationFromStreams]
    simp only [hfilter]

/-- Concrete instance of `duration_acceptance`: `format.duration = 5`
is accepted and floored; a missing `format.duration` is rejected. -/
theorem duration_acceptance_witness :
    getVideoDuration (fun _ => JSNum.nan)
      (.ok ⟨some (.num (.finite 5)), []⟩) = .ok (JSNum.finite 5).mathFloor ∧
    getVideoDuration (fun _ => JSNum.nan)
      (.ok ⟨none, []⟩) = .error "No duration found in metadata" :=
  ⟨(((duration_acceptance (fun _ => JSNum.nan)
        ⟨some (.num (.finite 5)), []⟩ (.num (.finite 5))).1 rfl).1).mpr
      ⟨rfl, by decide⟩,
   ((duration_acceptance (fun _ => JSNum.nan)
        ⟨none, []⟩ (.num (.finite 5))).2.1) rfl⟩

/-- The retry loop with a probe permanently resolving `0` never makes
progress: `attempts` is only incremented on a thrown probe error and
`duration = 0` stays falsy, so the loop re-invokes the probe on every
iteration. Helper generalized over the falsy loop state. -/
theorem retryLoop_zero_aux (fuel : ℕ) :
    ∀ (calls sleeps : ℕ) (d : Option ℕ), durTruthy d = false →
      retryLoop (fun _ => .ok 0) fuel 0 calls sleeps d =
        (none, calls + fuel, sleeps) := by
  induction fuel with
  | zero =>
    intro calls sleeps d _
    simp [retryLoop]
  | succ n ih =>
    intro calls sleeps d hd
    rw [retryLoop, if_pos ⟨by omega, hd⟩]
    show retryLoop (fun _ => .ok 0) n 0 (calls + 1) sleeps (some 0) =
      (none, calls + (n + 1), sleeps)
    rw [ih (calls + 1) sleeps (some 0) rfl]
    have harith : calls + 1 + n = calls + (n + 1) := by omega
    rw [harith]

/-- C5 fails on the code: with a probe stub that always resolves the
duration `0` (reachable: a real duration in `(0,1)` is floored to `0` by
`getVideoDuration`), the `while (attempts < 3 && !duration)` loop never
terminates — after any number `fuel` of iterations it has invoked the
probe `fuel` times (far beyond 3) and is still running — because a
resolving probe call never increments `attempts` while `0` remains
falsy. -/
theorem retryLoop_unbounded_on_zero (fuel : ℕ) :
    retryLoop (fun _ => .ok 0) fuel 0 0 0 none = (none, fuel, 0) := by
  have h := retryLoop_zero_aux fuel 0 0 none rfl
  simpa using h

/-- C6: `getAllVideos` never throws for per-entry problems (the
embedding is a total function — there is no failure path): an entry with
an unsupported extension is omitted, an entry whose per-file build fails
(stat throws) is omitted, and a valid entry yields exactly its record —
so a directory with one of each returns exactly the one valid record. -/
theorem getAllVideos_omits_bad_entries (ora : FileOracle) (v u f : String)
    (rec : VideoMetadata)
    (hvext : getFileExtension v ≠ "")
    (hvsup : mimeHasKey (getFileExtension v) = true)
    (hbv : getVideoMetadata ora v = .ok rec)
    (hu : mimeHasKey (getFileExtension u) = false)
    (hf : ora.statResult f = .error ()) :
    getAllVideos ora [v, u, f] = [rec] := by
  have hgf : getVideoMetadata ora f = .error () := by
    rw [getVideoMetadata, hf]
  by_cases hcf : getFileExtension f ≠ "" ∧ mimeHasKey (getFileExtension f) = true
  · simp [getAllVideos, hvext, hvsup, hbv, hu, hgf, hcf, List.reduceOption]
  · simp [getAllVideos, hvext, hvsup, hbv, hu, hgf, hcf, List.reduceOption]

/-- Demonstration oracle: `bad.mp4` fails `stat`, everything else stats
as a 100-byte file born at epoch-ms 5, probes to 7 seconds, and has no
thumbnail. -/
def demoOracle : FileOracle :=
  ⟨fun file => if file == "bad.mp4" then .error () else .ok (100, 5),
   fun _ => some 7, fun _ => none⟩

/-- The record `demoOracle` produces for `good.mp4`. -/
def demoRecord : VideoMetadata :=
  ⟨"good.mp4", "good", "good.mp4", 100, some 7, 5, none,
   "/videos/good.mp4", "video/mp4"⟩

/-- Concrete instance of `getAllVideos_omits_bad_entries`: one valid file,
one unsupported extension, one stat failure — exactly one record. -/
theorem getAllVideos_omits_bad_entries_witness :
    getAllVideos demoOracle ["good.mp4", "notes.txt", "bad.mp4"] = [demoRecord] :=
  getAllVideos_omits_bad_entries demoOracle "good.mp4" "notes.txt" "bad.mp4"
    demoRecord (by decide) (by decide) rfl (by decide) rfl

/-- C7: `ensureThumbnail` with `force = false`: if the candidate
`<base>.jpg` exists it returns `/thumbnails/<base>.jpg?v=⌊mtimeMs⌋`
without invoking generation; otherwise if `<base>_thumb.jpg` exists it
returns the analogous URL for the variant, also without generation. The
version token is exactly `⌊mtimeMs⌋` of the served candidate. -/
theorem ensureThumbnail_cached (storageDir : String) (fs : ThumbFS)
    (generate : String → String → Option ℚ) (rand : ℚ)
    (file : String) (duration : Option ℕ) :
    (fs.pathExists
        (storageDir ++ "/thumbnails" ++ "/" ++ (getBaseName file ++ ".jpg")) = true →
      ensureThumbnail storageDir fs generate rand file duration false =
        (some ("/thumbnails/" ++ (getBaseName file ++ ".jpg") ++ "?v=" ++
          Int.repr ⌊fs.mtimeMs
            (storageDir ++ "/thumbnails" ++ "/" ++ (getBaseName file ++ ".jpg"))⌋),
         [])) ∧
    (fs.pathExists
        (storageDir ++ "/thumbnails" ++ "/" ++ (getBaseName file ++ ".jpg")) = false →
     fs.pathExists
        (storageDir ++ "/thumbnails" ++ "/" ++ (getBaseName file ++ "_thumb.jpg")) = true →
      ensureThumbnail storageDir fs generate rand file duration false =
        (some ("/thumbnails/" ++ (getBaseName file ++ "_thumb.jpg") ++ "?v=" ++
          Int.repr ⌊fs.mtimeMs
            (storageDir ++ "/thumbnails" ++ "/" ++ (getBaseName file ++ "_thumb.jpg"))⌋),
         [])) := by
  constructor
  · intro h1
    simp [ensureThumbnail, h1]
  · intro h1 h2
    simp [ensureThumbnail, h1, h2]

/-- Thumbnail filesystem in which only `<base>.jpg` exists. -/
def demoThumbFS : ThumbFS :=
  ⟨fun p => p == "/storage/thumbnails/vid.jpg", fun _ => 1234⟩

/-- Thumbnail filesystem in which only `<base>_thumb.jpg` exists. -/
def demoThumbVariantFS : ThumbFS :=
  ⟨fun p => p == "/storage/thumbnails/vid_thumb.jpg", fun _ => 5678⟩

/-- Concrete instance of `ensureThumbnail_cached` for both candidates. -/
theorem ensureThumbnail_cached_witness :
    ensureThumbnail "/storage" demoThumbFS (fun _ _ => none) 0 "vid.mp4"
        (some 10) false =
      (some ("/thumbnails/" ++ (getBaseName "vid.mp4" ++ ".jpg") ++ "?v=" ++
        Int.repr ⌊demoThumbFS.mtimeMs
          ("/storage" ++ "/thumbnails" ++ "/" ++ (getBaseName "vid.mp4" ++ ".jpg"))⌋),
       []) ∧
    ensureThumbnail "/storage" demoThumbVariantFS (fun _ _ => none) 0 "vid.mp4"
        (some 10) false =
      (some ("/thumbnails/" ++ (getBaseName "vid.mp4" ++ "_thumb.jpg") ++ "?v=" ++
        Int.repr ⌊demoThumbVariantFS.mtimeMs
          ("/storage" ++ "/thumbnails" ++ "/" ++ (getBaseName "vid.mp4" ++ "_thumb.jpg"))⌋),
       []) :=
  ⟨(ensureThumbnail_cached "/storage" demoThumbFS (fun _ _ => none) 0 "vid.mp4"
      (some 10)).1 (by decide),
   (ensureThumbnail_cached "/storage" demoThumbVariantFS (fun _ _ => none) 0 "vid.mp4"
      (some 10)).2 (by decide) (by decide)⟩

/-- C8 fails as stated: an abnormal (signal) termination delivers
`code = null` to the close handler, which coerces it with `code ?? 0`
to `0` — so a spawned process that terminates abnormally is reported as
success (`ok: true`, status 200), not as a failure. -/
theorem spritePOST_abnormal_exit_counterexample :
    spritePOST "/storage" "/app" (fun _ => true) none (.str "a.mp4") =
      ⟨200, some true,
       [("python3",
         ["-u", "/app/../backend/videoprocessing/generate_sprite.py",
          "--input", "/storage/videos/a.mp4"])]⟩ := by decide

/-- C8 (amended): the handler spawns no subprocess when the source video
is missing (404) or the generator script is missing (500); for a spawned
process the response reports `ok: true` iff the close-event exit code —
an abnormal (`null`) exit being coerced to `0` — equals zero, so every
non-zero exit code is a failure response but an abnormal exit is
reported as success. -/
theorem spritePOST_spec (storageDir cwd : String) (fsExists : String → Bool)
    (exitOutcome : Option ℤ) (name : String) (hname : name ≠ "") :
    (fsExists (storageDir ++ "/videos" ++ "/" ++ name) = false →
      spritePOST storageDir cwd fsExists exitOutcome (.str name) =
        ⟨404, none, []⟩) ∧
    (fsExists (storageDir ++ "/videos" ++ "/" ++ name) = true →
     fsExists (cwd ++ "/../backend/videoprocessing/generate_sprite.py") = false →
      spritePOST storageDir cwd fsExists exitOutcome (.str name) =
        ⟨500, none, []⟩) ∧
    (fsExists (storageDir ++ "/videos" ++ "/" ++ name) = true →
     fsExists (cwd ++ "/../backend/videoprocessing/generate_sprite.py") = true →
      (((spritePOST storageDir cwd fsExists exitOutcome (.str name)).okField =
          some true) ↔ exitOutcome.getD 0 = 0) ∧
      (((spritePOST storageDir cwd fsExists exitOutcome (.str name)).status =
          200) ↔ exitOutcome.getD 0 = 0) ∧
      (spritePOST storageDir cwd fsExists exitOutcome (.str name)).spawned ≠ []) := by
  have hinv : (BodyField.str name).invalid = false := by
    simp [BodyField.invalid, hname]
  refine ⟨?_, ?_, ?_⟩
  · intro hv
    simp [spritePOST, hinv, hv]
  · intro hv hs
    simp [spritePOST, hinv, hv, hs]
  · intro hv hs
    by_cases hz : exitOutcome.getD 0 = 0
    · simp [spritePOST, hinv, hv, hs, hz]
    · simp [spritePOST, hinv, hv, hs, hz]

/-- Concrete instance of `spritePOST_spec`: missing video → 404 without
spawn; with both paths present, exit code 3 → failure response. -/
theorem spritePOST_spec_witness :
    (spritePOST "/s" "/c" (fun _ => false) (some 3) (.str "a.mp4") =
      ⟨404, none, []⟩) ∧
    ((((spritePOST "/s" "/c" (fun _ => true) (some 3) (.str "a.mp4")).okField =
        some true) ↔ (some (3 : ℤ)).getD 0 = 0) ∧
     (((spritePOST "/s" "/c" (fun _ => true) (some 3) (.str "a.mp4")).status =
        200) ↔ (some (3 : ℤ)).getD 0 = 0) ∧
     (spritePOST "/s" "/c" (fun _ => true) (some 3) (.str "a.mp4")).spawned ≠ []) :=
  ⟨(spritePOST_spec "/s" "/c" (fun _ => false) (some 3) "a.mp4"
      (by decide)).1 rfl,
   (spritePOST_spec "/s" "/c" (fun _ => true) (some 3) "a.mp4"
      (by decide)).2.2 rfl rfl⟩

/-- C10: the supported-format filter of `getAllVideos` is membership in
the extension→MIME table; that table maps the image extensions webp,
png, jpg, jpeg to image MIME types; hence every stat-able file in the
storage directory with one of these extensions is included in the
returned list as a record whose `mimeType` is the image MIME type. -/
theorem getAllVideos_includes_images (ora : FileOracle) (files : List String)
    (file : String) (sz : ℕ) (birth : ℚ)
    (hmem : file ∈ files)
    (hstat : ora.statResult file = .ok (sz, birth))
    (hext : getFileExtension file = "webp" ∨ getFileExtension file = "png" ∨
            getFileExtension file = "jpg" ∨ getFileExtension file = "jpeg") :
    (∀ ext : String, mimeHasKey ext = (mimeLookup ext).isSome) ∧
    (mimeLookup "webp" = some "image/webp" ∧
     mimeLookup "png" = some "image/png" ∧
     mimeLookup "jpg" = some "image/jpeg" ∧
     mimeLookup "jpeg" = some "image/jpeg") ∧
    ∃ rec ∈ getAllVideos ora files,
      rec.fileName = file ∧ some rec.mimeType = mimeLookup (getFileExtension file) := by
  have hsup : mimeHasKey (getFileExtension file) = true := by
    rcases hext with h | h | h | h <;> rw [h] <;> decide
  have hne : getFileExtension file ≠ "" := by
    rcases hext with h | h | h | h <;> rw [h] <;> decide
  refine ⟨?_, by decide, ?_⟩
  · intro ext
    cases h : MIME_TYPES.find? (fun p => p.1 == ext) <;>
      simp [mimeHasKey, mimeLookup, h]
  · refine ⟨{ id := file, title := replaceSeps (getBaseName file),
              fileName := file, size := sz,
              duration := ora.durationResult file, createdAt := birth,
              thumbnailUrl := ora.thumbnailResult file,
              videoUrl := "/videos/" ++ file,
              mimeType := (mimeLookup (getFileExtension file)).getD "video/mp4" },
            ?_, rfl, ?_⟩
    · rw [getAllVideos]
      refine List.reduceOption_mem_iff.mpr (List.mem_map.mpr ⟨file, hmem, ?_⟩)
      simp [hne, hsup, getVideoMetadata, hstat]
    · rcases hext with h | h | h | h <;> rw [h] <;> rfl

/-- Concrete instance of `getAllVideos_includes_images`: `pic.webp` in
the demo listing is returned with `mimeType = image/webp`. -/
theorem getAllVideos_includes_images_witness :
    (∀ ext : String, mimeHasKey ext = (mimeLookup ext).isSome) ∧
    (mimeLookup "webp" = some "image/webp" ∧
     mimeLookup "png" = some "image/png" ∧
     mimeLookup "jpg" = some "image/jpeg" ∧
     mimeLookup "jpeg" = some "image/jpeg") ∧
    ∃ rec ∈ getAllVideos demoOracle ["good.mp4", "pic.webp"],
      rec.fileName = "pic.webp" ∧
      some rec.mimeType = mimeLookup (getFileExtension "pic.webp") :=
  getAllVideos_includes_images demoOracle ["good.mp4", "pic.webp"] "pic.webp"
    100 5 (by decide) rfl (by decide)

/-- Concrete instance of `calculateThumbnailTime_bounds` at
`x = NaN`, `d = 30`, `rand = 1/2`. -/
theorem calculateThumbnailTime_bounds_witness :
    (JSNum.nan.isFinite = false →
      calculateThumbnailTime JSNum.nan (1/2) = "00:00:01") ∧
    ((30 : ℚ) ≤ 6 → calculateThumbnailTime (.finite 30) (1/2) = "00:00:01") ∧
    ((6 : ℚ) < 30 → ∃ t : ℕ,
      calculateThumbnailTime (.finite (30 : ℚ)) (1/2) = formatHMS t ∧
      hmsValue (t / 3600) (t % 3600 / 60) (t % 60) = t ∧
      min 10 ⌊(30 : ℚ) * (2/10)⌋ ≤ (t : ℤ) ∧
      (t : ℤ) ≤ max (min 10 ⌊(30 : ℚ) * (2/10)⌋) ⌊(30 : ℚ) - 5⌋) :=
  calculateThumbnailTime_bounds JSNum.nan 30 (1/2) (by norm_num) (by norm_num)

end VideoApp
